import Mathlib

/-!
Verification of the rate-limited Shopify GraphQL client
(src/lib/shopify/client.ts) and the Google-Drive import pipeline
(src/app/api/gdrive/import/route.ts).

The TypeScript is shallowly embedded: timestamps and point budgets are
rationals (JS milliseconds / fractional points), the retry loop is a
well-founded recursion over the remaining attempt count, the pagination
generator is a fuel-indexed recursion that also records the trace of
`after` cursor values it sends, and the import route's per-item loop is a
fold over the file list threading the record-store state, the per-run
bucket cache and the `results` accumulator.
-/

namespace Spec2Proof

/-! ## Rate limiter (ShopifyClient.rateLimitState / updateRateLimit / waitForRateLimit) -/

/-- Shape of `extensions.cost.throttleStatus` in a GraphQL response
(client.ts lines 33-37). -/
structure ThrottleStatus where
  maximumAvailable : ℚ
  currentlyAvailable : ℚ
  restoreRate : ℚ
deriving Repr, DecidableEq

/-- Shape of `ShopifyClient.rateLimitState` (client.ts lines 42-46):
`available` points, `restoreRate` in points per second, `lastUpdate` a
millisecond timestamp. -/
structure RateLimitState where
  available : ℚ
  restoreRate : ℚ
  lastUpdate : ℚ
deriving Repr, DecidableEq

/-- Embedding of `updateRateLimit` (client.ts lines 64-73): when the
response carries `extensions.cost.throttleStatus`, overwrite `available`
with `currentlyAvailable`, `restoreRate` with the reported rate, and stamp
`lastUpdate := now`; otherwise leave the state untouched.  Note the
reported `maximumAvailable` is read out of the structure but never stored. -/
def updateRateLimit (s : RateLimitState) (ext : Option ThrottleStatus) (now : ℚ) :
    RateLimitState :=
  match ext with
  | some t => { available := t.currentlyAvailable, restoreRate := t.restoreRate, lastUpdate := now }
  | none => s

/-- Embedding of the estimate computed by `waitForRateLimit`
(client.ts lines 77-79): `elapsed = (now - lastUpdate) / 1000` seconds,
`restored = elapsed * restoreRate`, `estimated = min(1000, available + restored)`.
The cap is the literal constant 1000. -/
def estimatedAvailable (s : RateLimitState) (now : ℚ) : ℚ :=
  min 1000 (s.available + ((now - s.lastUpdate) / 1000) * s.restoreRate)

/-- Embedding of the wait duration computed by `waitForRateLimit`
(client.ts lines 81-85): if the estimate is below the requested cost the
computed wait is `((cost - estimated) / restoreRate) * 1000` milliseconds,
otherwise no wait happens. -/
def rateLimitWait (s : RateLimitState) (now : ℚ) (cost : ℚ) : ℚ :=
  if estimatedAvailable s now < cost then
    ((cost - estimatedAvailable s now) / s.restoreRate) * 1000
  else 0

/-! ## Retry loop (ShopifyClient.query, client.ts lines 88-150)

One fetch attempt either rejects at the network layer or yields a response
with an HTTP status, an application-level error list and an optional data
payload.  The loop body is modelled attempt by attempt; sleeps performed
inside the loop (the fixed 2000 ms throttle wait of line 126 and the
exponential backoff of lines 141-145) are recorded in order in `waits`,
and `requests` counts how many fetches were issued.  The telemetry update
of line 117 is the `updateRateLimit` function above; it does not influence
the control flow of the loop and is not threaded through it. -/

/-- One entry of the GraphQL `errors` array (client.ts lines 20-28),
keeping the `message` and the optional `extensions.code` used for
throttling classification. -/
structure GQLError where
  message : String
  code : Option String
deriving Repr, DecidableEq

/-- The parsed body and HTTP status of one fetch attempt. -/
structure GQLResponse (α : Type) where
  ok : Bool
  status : Nat
  statusText : String
  errors : List GQLError
  payload : Option α
deriving Repr, DecidableEq

/-- Outcome of one `fetch`: either the promise rejects (network error,
caught by the catch block) or a response arrives. -/
inductive FetchResult (α : Type) where
  | netErr (msg : String)
  | resp (r : GQLResponse α)
deriving Repr, DecidableEq

/-- What `ShopifyClient.query` produces: the returned payload or the
thrown error message, together with the ordered list of in-loop sleep
durations (ms) and the number of fetches issued. -/
structure QueryOutcome (α : Type) where
  result : Except String α
  waits : List ℕ
  requests : ℕ
deriving Repr

/-- Concatenated error messages, client.ts line 121:
`json.errors.map(e => e.message).join(', ')`. -/
def joinMessages (es : List GQLError) : String :=
  String.intercalate ", " (es.map (fun e => e.message))

/-- Throttling classification, client.ts line 124:
`json.errors.some(e => e.extensions?.code === 'THROTTLED')`. -/
def isThrottled (es : List GQLError) : Bool :=
  es.any (fun e => e.code = some "THROTTLED")

/-- Embedding of the `for (let attempt = 0; attempt < retries; attempt++)`
loop of `ShopifyClient.query` (client.ts lines 99-149), parameterised by
the fetch outcome of each attempt index.  The catch block (lines 138-146)
sets `lastError` and, when `attempt < retries - 1`, sleeps
`2 ^ attempt * 1000` ms; the THROTTLED branch (lines 124-128) sleeps a
fixed 2000 ms and `continue`s, which still runs the `attempt++` update of
the loop head; falling out of the loop throws
`lastError || new Error('Unknown error')` (line 149).  The final `ℕ`
argument is the structural form of the loop test: the number of
iterations the test `attempt < retries` still allows, maintained along
the run as `(retries - attempt).toNat`. -/
def queryGo {α : Type} (req : ℤ → FetchResult α) (retries attempt : ℤ)
    (lastError : Option String) (waits : List ℕ) (requests : ℕ) :
    ℕ → QueryOutcome α
  | 0 => { result := .error (lastError.getD "Unknown error"), waits := waits, requests := requests }
  | remaining + 1 =>
    let caught (msg : String) : QueryOutcome α :=
      queryGo req retries (attempt + 1) (some msg)
        (if attempt < retries - 1 then waits ++ [2 ^ attempt.toNat * 1000] else waits)
        (requests + 1) remaining
    match req attempt with
    | .netErr msg => caught msg
    | .resp r =>
      if !r.ok then
        caught ("HTTP " ++ toString r.status ++ ": " ++ r.statusText)
      else if !r.errors.isEmpty then
        if isThrottled r.errors then
          queryGo req retries (attempt + 1) lastError (waits ++ [2000]) (requests + 1) remaining
        else
          caught ("GraphQL Error: " ++ joinMessages r.errors)
      else
        match r.payload with
        | none => caught "No data in response"
        | some d => { result := .ok d, waits := waits, requests := requests + 1 }

/-- Entry point of the retry loop: attempt counter starts at 0, no error
seen yet, no sleeps performed, no fetches issued (client.ts lines 97-99).
The structural counter starts at `retries.toNat`, so along the whole run
it equals `(retries - attempt).toNat` and reaching 0 is exactly the
failure of the loop test `attempt < retries`; in particular a
non-positive `retries` runs the body zero times, as in JS. -/
def queryLoop {α : Type} (req : ℤ → FetchResult α) (retries : ℤ) : QueryOutcome α :=
  queryGo req retries 0 none [] 0 retries.toNat

/-! ## Pagination (ShopifyClient.paginate, client.ts lines 155-182)

The generator is modelled with fuel; `fetchPage` stands for the
`this.query` call and maps the `after` cursor it is sent to the page data
the server returns.  Besides the yielded node arrays the embedding records
the trace of `after` values passed to successive requests, so cursor
threading is observable: the first request carries `none` (`cursor` is
initialised to `null`, line 163) and each later request carries the
previous page's `endCursor` unmodified (line 180). -/

/-- Shape of the extracted page info (client.ts line 158). -/
structure PageInfo where
  hasNextPage : Bool
  endCursor : Option String
deriving Repr, DecidableEq

/-- Embedding of the `while (hasNextPage)` loop of `paginate`: issue the
request with the current cursor, yield the nodes when non-empty
(lines 173-176), then continue from the page's `endCursor` exactly when it
reports `hasNextPage` (lines 178-181).  Returns the yielded arrays and the
trace of `after` cursors sent. -/
def paginateGo {δ β : Type} (fetchPage : Option String → δ) (getPageInfo : δ → PageInfo)
    (getNodes : δ → List β) (cursor : Option String) (fuel : ℕ) :
    List (List β) × List (Option String) :=
  match fuel with
  | 0 => ([], [])
  | fuel' + 1 =>
    let d := fetchPage cursor
    let nodes := getNodes d
    let pinfo := getPageInfo d
    let rest :=
      if pinfo.hasNextPage then
        paginateGo fetchPage getPageInfo getNodes pinfo.endCursor fuel'
      else ([], [])
    ((if nodes.length > 0 then [nodes] else []) ++ rest.1, cursor :: rest.2)

/-- Entry point of `paginate`: the cursor starts as `null` (line 163). -/
def paginate {δ β : Type} (fetchPage : Option String → δ) (getPageInfo : δ → PageInfo)
    (getNodes : δ → List β) (fuel : ℕ) : List (List β) × List (Option String) :=
  paginateGo fetchPage getPageInfo getNodes none fuel

/-! ## Import pipeline (src/app/api/gdrive/import/route.ts)

The per-item loop of the POST handler (lines 54-149) is embedded as a fold
over the listed files.  The record store consumed through supabase is an
explicit `Db` value threaded through the run; the Google-Drive download
and the Storj upload are pure collaborator functions supplied in an
`ImportEnv` (a download yields the buffer, modelled by its byte length).
The `media_buckets` upsert and the `media_assets` insert are also env
functions so that persistence failures can be modelled; `canonicalUpsert`
and `canonicalInsert` below give them the record-store semantics the route
relies on (upsert with `onConflict: 'product_id'`, append-only insert).
The constant columns `bucket_status`, `last_upload_at`, `workflow_state`,
`workflow_category` and `import_source` are fixed strings or timestamps
that no claim reads and are left out of the rows. -/

/-- One file produced by `listFolderTree` (fields the route reads). -/
structure DriveFile where
  id : String
  path : String
  mimeType : String
  name : String
deriving Repr, DecidableEq

/-- One row of the `products` table (columns the route selects, line 69). -/
structure Product where
  id : String
  sku_label : String
deriving Repr, DecidableEq

/-- One row of the `media_buckets` table (columns the route writes that
claims read; `product_id` is the upsert conflict key, line 91). -/
structure BucketRow where
  id : String
  product_id : String
  sku_label : String
  storj_path : String
  google_drive_folder_path : String
deriving Repr, DecidableEq

/-- One row of the `media_assets` table (route lines 121-135). -/
structure AssetRow where
  media_bucket_id : String
  media_type : String
  file_url : String
  file_key : String
  file_size : ℕ
  file_mime_type : String
  original_filename : String
  source_folder_path : String
  google_drive_file_id : String
  google_drive_folder_path : String
deriving Repr, DecidableEq

/-- The record store reached through supabase. -/
structure Db where
  products : List Product
  buckets : List BucketRow
  assets : List AssetRow
deriving Repr, DecidableEq

/-- The non-constant columns passed to the `media_buckets` upsert
(route lines 83-90). -/
structure BucketInput where
  product_id : String
  sku_label : String
  storj_path : String
  google_drive_folder_path : String
deriving Repr, DecidableEq

/-- External collaborators of the loop body.  `bucketUpsert` returns the
updated store and `.select('id, storj_path').single()` data (`none` models
a null `mb`); `assetInsert` returns the updated store. -/
structure ImportEnv where
  download : DriveFile → Except String ℕ
  uploadObject : String → String → ℕ → String → Except String Unit
  bucketUpsert : Db → BucketInput → Except String (Db × Option (String × String))
  assetInsert : Db → AssetRow → Except String Db

/-- The `results` accumulator of the route (lines 39-47). -/
structure RunResults where
  total : ℕ
  uploaded : ℕ
  failed : ℕ
  errors : List (String × String)
  assetsCreated : ℕ
  bucketsCreated : ℕ
  skippedNoProduct : ℕ
deriving Repr, DecidableEq

/-- State threaded through the loop: the record store, the per-run
`bucketCache` (association list sku label to bucket id and storj path,
route lines 49-52) and the `results` accumulator. -/
structure RunState where
  db : Db
  cache : List (String × String × String)
  results : RunResults
deriving Repr

/-- JS `s.split(sep)` for a one-character separator, structurally over
the character list: splitting the empty list yields one empty field, a
separator character opens a new field, any other character extends the
first field. -/
def splitChar (sep : Char) : List Char → List (List Char)
  | [] => [[]]
  | c :: cs =>
    let r := splitChar sep cs
    if c = sep then [] :: r
    else
      match r with
      | [] => [[c]]
      | h :: t => (c :: h) :: t

/-- JS `file.path.split('/')` (route lines 57, 88, 133). -/
def splitOnSlash (s : String) : List String :=
  (splitChar '/' s.data).map (fun cs => String.mk cs)

/-- JS `parts.join(sep)`: the parts separated by `sep`. -/
def joinSep (sep : String) : List String → String
  | [] => ""
  | [x] => x
  | x :: y :: ys => x ++ sep ++ joinSep sep (y :: ys)

/-- Boolean prefix test on character lists. -/
def charsPrefix : List Char → List Char → Bool
  | [], _ => true
  | _ :: _, [] => false
  | a :: as, b :: bs => a = b && charsPrefix as bs

/-- JS `s.startsWith(p)` (route lines 115-118). -/
def startsWithStr (s p : String) : Bool :=
  charsPrefix p.data s.data

/-- The catch block of the per-item try (route lines 142-148): increment
`failed` and append the path and message to `errors`. -/
def itemFailed (st : RunState) (file : DriveFile) (msg : String) : RunState :=
  { st with results := { st.results with
      failed := st.results.failed + 1,
      errors := st.results.errors ++ [(file.path, msg)] } }

/-- Embedding of `.select().eq('sku_label', s).single()` on `products`
(route lines 67-71): `.single()` yields data exactly when one row matches;
the route reads `data` and ignores the error, so zero or several matches
both surface as a missing product. -/
def productSingle (ps : List Product) (sku : String) : Option Product :=
  match ps.filter (fun p => p.sku_label = sku) with
  | [p] => some p
  | _ => none

/-- JS `[...].filter(Boolean).join(sep)` on strings: drop the empty
strings, join with the separator (route lines 78 and 111). -/
def joinNonEmpty (sep : String) (xs : List String) : String :=
  joinSep sep (xs.filter (fun s => s ≠ ""))

/-- JS `file.path.split('/').slice(0, -1).join('/')` (route lines 88
and 133). -/
def folderPathOf (file : DriveFile) : String :=
  joinSep "/" ((splitOnSlash file.path).dropLast)

/-- Media-type classification from the mime type (route lines 115-119). -/
def mediaTypeOf (mime : String) : String :=
  if startsWithStr mime "image/" then "image"
  else if startsWithStr mime "video/" then "video"
  else "file"

/-- Steps 2 and 3 of the loop body once a bucket handle is known
(route lines 111-141): build the object key, upload, increment `uploaded`,
insert the `media_assets` row, increment `assetsCreated`; any failure
falls to the catch block.  `info` is the cached or upserted
`(bucket id, storj path)` pair and `buffer` the downloaded byte count. -/
def uploadAndRecord (env : ImportEnv) (bucket basePath : String) (st : RunState)
    (file : DriveFile) (buffer : ℕ) (info : String × String) : RunState :=
  let key := joinNonEmpty "/" [basePath, file.path]
  match env.uploadObject bucket key buffer file.mimeType with
  | .error m => itemFailed st file m
  | .ok _ =>
    let st := { st with results := { st.results with uploaded := st.results.uploaded + 1 } }
    let asset : AssetRow :=
      { media_bucket_id := info.1,
        media_type := mediaTypeOf file.mimeType,
        file_url := "storj://" ++ bucket ++ "/" ++ key,
        file_key := key,
        file_size := buffer,
        file_mime_type := file.mimeType,
        original_filename := file.name,
        source_folder_path := file.path,
        google_drive_file_id := file.id,
        google_drive_folder_path := folderPathOf file }
    match env.assetInsert st.db asset with
    | .error m => itemFailed st file ("Asset insert failed for " ++ file.path ++ ": " ++ m)
    | .ok db' =>
      { st with
          db := db',
          results := { st.results with assetsCreated := st.results.assetsCreated + 1 } }

/-- One iteration of the per-file loop (route lines 54-149), instrumented:
besides the next state it reports the list of product ids the
`media_buckets` upsert was invoked on during this iteration (zero or one),
used to reason about idempotence.  Mirrors the route in order: download;
take the first path segment as the SKU label, failing when it is empty;
consult the cache; on a miss look the product up, skipping the item when
`.single()` yields no row; upsert the bucket, failing on an upsert error
or a null row, else increment `bucketsCreated` and cache the handle; then
upload and record the asset. -/
def processFileK (env : ImportEnv) (bucket basePath : String) (st : RunState)
    (file : DriveFile) : RunState × List String :=
  match env.download file with
  | .error msg => (itemFailed st file msg, [])
  | .ok buffer =>
    let pathParts := splitOnSlash file.path
    let skuLabel := pathParts.headD ""
    if skuLabel = "" then (itemFailed st file "Missing SKU label in path", [])
    else
      match st.cache.find? (fun e => e.1 = skuLabel) with
      | some entry =>
        (uploadAndRecord env bucket basePath st file buffer (entry.2.1, entry.2.2), [])
      | none =>
        match productSingle st.db.products skuLabel with
        | none =>
          ({ st with results :=
              { st.results with skippedNoProduct := st.results.skippedNoProduct + 1 } }, [])
        | some product =>
          let storjPath := joinNonEmpty "" [basePath, "products/" ++ skuLabel ++ "/"]
          match env.bucketUpsert st.db
              { product_id := product.id, sku_label := skuLabel, storj_path := storjPath,
                google_drive_folder_path := folderPathOf file } with
          | .error m =>
            (itemFailed st file ("Bucket upsert failed for " ++ skuLabel ++ ": " ++ m),
              [product.id])
          | .ok (db', mb) =>
            let st' := { st with db := db' }
            match mb with
            | none =>
              (itemFailed st' file ("Bucket upsert returned no data for " ++ skuLabel),
                [product.id])
            | some info =>
              let st'' := { st' with
                cache := st'.cache ++ [(skuLabel, info.1, info.2)],
                results := { st'.results with
                  bucketsCreated := st'.results.bucketsCreated + 1 } }
              (uploadAndRecord env bucket basePath st'' file buffer info, [product.id])

/-- One iteration of the per-file loop, without the instrumentation. -/
def processFile (env : ImportEnv) (bucket basePath : String) (st : RunState)
    (file : DriveFile) : RunState :=
  (processFileK env bucket basePath st file).1

/-- The whole `for (const file of files)` loop from a given state,
collecting the upsert instrumentation of every iteration. -/
def runFilesK (env : ImportEnv) (bucket basePath : String) (st : RunState) :
    List DriveFile → RunState × List String
  | [] => (st, [])
  | f :: fs =>
    let step := processFileK env bucket basePath st f
    let rest := runFilesK env bucket basePath step.1 fs
    (rest.1, step.2 ++ rest.2)

/-- Initial `results` value (route lines 39-47): `total` is the file
count, every counter zero, no errors. -/
def initResults (files : List DriveFile) : RunResults :=
  { total := files.length, uploaded := 0, failed := 0, errors := [],
    assetsCreated := 0, bucketsCreated := 0, skippedNoProduct := 0 }

/-- One pipeline run: fresh cache, fresh results, loop over the files. -/
def runImport (env : ImportEnv) (bucket basePath : String) (db : Db)
    (files : List DriveFile) : RunState :=
  (runFilesK env bucket basePath
    { db := db, cache := [], results := initResults files } files).1

/-- Fresh-id convention of the modelled record store: a created
`media_buckets` row gets an id derived from its conflict key. -/
def bucketRowOfInput (b : BucketInput) : BucketRow :=
  { id := b.product_id ++ ":bucket", product_id := b.product_id, sku_label := b.sku_label,
    storj_path := b.storj_path, google_drive_folder_path := b.google_drive_folder_path }

/-- Record-store semantics of the `media_buckets` upsert with
`onConflict: 'product_id', ignoreDuplicates: false` (route lines 80-94):
when a row with the same `product_id` exists, overwrite its payload
columns in place keeping its id; otherwise append a new row.  Either way
`.select('id, storj_path').single()` yields the row. -/
def canonicalUpsert (db : Db) (b : BucketInput) : Except String (Db × Option (String × String)) :=
  match db.buckets.find? (fun row => row.product_id = b.product_id) with
  | some row =>
    let db' := { db with buckets := db.buckets.map (fun x =>
        if x.product_id = b.product_id then
          { x with
              sku_label := b.sku_label,
              storj_path := b.storj_path,
              google_drive_folder_path := b.google_drive_folder_path }
        else x) }
    .ok (db', some (row.id, b.storj_path))
  | none =>
    .ok ({ db with buckets := db.buckets ++ [bucketRowOfInput b] },
      some (b.product_id ++ ":bucket", b.storj_path))

/-- Record-store semantics of the `media_assets` insert (route
lines 121-135): append-only, no conflict key. -/
def canonicalInsert (db : Db) (a : AssetRow) : Except String Db :=
  .ok { db with assets := db.assets ++ [a] }

/-- An environment whose record store has the canonical upsert and insert
semantics, with arbitrary (pure, hence deterministic) download and upload
collaborators. -/
def canonicalEnv (download : DriveFile → Except String ℕ)
    (uploadObject : String → String → ℕ → String → Except String Unit) : ImportEnv :=
  { download := download, uploadObject := uploadObject,
    bucketUpsert := canonicalUpsert, assetInsert := canonicalInsert }

/-- Conflict keys of the grouping records present in the store. -/
def bucketKeys (db : Db) : List String :=
  db.buckets.map (fun row => row.product_id)

/-- SKU labels present in the per-run cache. -/
def cacheKeys (c : List (String × String × String)) : List String :=
  c.map (fun e => e.1)

/-- Modelled from the spec, for comparison with the code's
`estimatedAvailable`: the RateBudget invariant reconstructs the estimate
as min(maxPoints, availablePoints + elapsedSeconds * restoreRatePerSecond)
where maxPoints is a budget value kept current by observations. -/
def specEstimatedAvailable (maxPoints : ℚ) (s : RateLimitState) (now : ℚ) : ℚ :=
  min maxPoints (s.available + ((now - s.lastUpdate) / 1000) * s.restoreRate)

/-! # Theorems -/

/-! ## Rate limiter: claims C5 and C8 -/

/-- Claim C5, counterexample: after an observation reporting
maximumAvailable = 2000 and currentlyAvailable = 1500, the client
reconstructs the estimate against the constant 1000 and reports 1000,
while reconstruction against the observed budget maximum, as the claim
states it, yields 1500. -/
theorem rateBudget_cap_ignores_observed_max :
    estimatedAvailable
      (updateRateLimit { available := 1000, restoreRate := 50, lastUpdate := 0 }
        (some { maximumAvailable := 2000, currentlyAvailable := 1500, restoreRate := 50 }) 0) 0
      = 1000 ∧
    specEstimatedAvailable 2000
      (updateRateLimit { available := 1000, restoreRate := 50, lastUpdate := 0 }
        (some { maximumAvailable := 2000, currentlyAvailable := 1500, restoreRate := 50 }) 0) 0
      = 1500 ∧
    (1000 : ℚ) ≠ 1500 := by
  refine ⟨?_, ?_, by norm_num⟩ <;>
    norm_num [estimatedAvailable, specEstimatedAvailable, updateRateLimit, min_def]

/-- Claim C5 (amended): between observations the available-points value
is reconstructed as min(1000, availablePoints + elapsedSeconds *
restoreRatePerSecond) where 1000 is a hard-coded constant, so the
estimate never exceeds 1000; an observation overwrites availablePoints,
the restore rate and the timestamp with the response's reported values
and ignores the reported maximumAvailable entirely; absent throttle
telemetry the budget state is untouched. -/
theorem rateBudget_constant_cap_and_observation :
    (∀ s t o, updateRateLimit s (some o) t =
      { available := o.currentlyAvailable, restoreRate := o.restoreRate, lastUpdate := t }) ∧
    (∀ s t mx mx' cur rr,
      updateRateLimit s
          (some { maximumAvailable := mx, currentlyAvailable := cur, restoreRate := rr }) t =
        updateRateLimit s
          (some { maximumAvailable := mx', currentlyAvailable := cur, restoreRate := rr }) t) ∧
    (∀ s t, updateRateLimit s none t = s) ∧
    (∀ s now, estimatedAvailable s now ≤ 1000) ∧
    (∀ s now, estimatedAvailable s now =
      min 1000 (s.available + ((now - s.lastUpdate) / 1000) * s.restoreRate)) :=
  ⟨fun _ _ _ => rfl, fun _ _ _ _ _ _ => rfl, fun _ _ => rfl,
    fun _ _ => min_le_left _ _, fun _ _ => rfl⟩

/-- Monotonicity of the reconstructed estimate in the elapsed time, for a
non-negative restore rate. -/
theorem estimatedAvailable_mono (s : RateLimitState) (hr : 0 ≤ s.restoreRate) (now1 now2 : ℚ)
    (h : now1 ≤ now2) : estimatedAvailable s now1 ≤ estimatedAvailable s now2 := by
  unfold estimatedAvailable
  refine min_le_min le_rfl (add_le_add_left ?_ _)
  exact mul_le_mul_of_nonneg_right
    ((div_le_div_iff_of_pos_right (by norm_num)).mpr (by linarith)) hr

/-- Claim C8, counterexample: with the budget at the cap, more elapsed
time does not shrink the computed wait.  State available=1000, rate=50,
last update at 0, cost 1500: at both 1000 ms and 2000 ms of elapsed time
the estimate is 1000, strictly below the cost, yet the wait computed at
the later instant equals the earlier one instead of being strictly
smaller. -/
theorem rateLimitWait_capped_not_strictly_decreasing :
    estimatedAvailable { available := 1000, restoreRate := 50, lastUpdate := 0 } 1000 < 1500 ∧
    estimatedAvailable { available := 1000, restoreRate := 50, lastUpdate := 0 } 2000 < 1500 ∧
    (1000 : ℚ) < 2000 ∧
    rateLimitWait { available := 1000, restoreRate := 50, lastUpdate := 0 } 2000 1500 =
      rateLimitWait { available := 1000, restoreRate := 50, lastUpdate := 0 } 1000 1500 := by
  norm_num [rateLimitWait, estimatedAvailable, min_def]

/-- Claim C8 (amended): for a positive restore rate, whenever the cost
exceeds the current estimate the computed wait is strictly positive; the
wait is non-increasing in the elapsed time (cost and budget state held
fixed), and it is strictly decreasing as long as the earlier estimate is
still below the 1000-point cap. -/
theorem rateLimitWait_pos_and_decreasing (s : RateLimitState) (cost now1 now2 : ℚ)
    (hr : 0 < s.restoreRate) :
    (estimatedAvailable s now1 < cost → 0 < rateLimitWait s now1 cost) ∧
    (now1 ≤ now2 → rateLimitWait s now2 cost ≤ rateLimitWait s now1 cost) ∧
    (now1 < now2 → estimatedAvailable s now1 < cost →
      s.available + ((now1 - s.lastUpdate) / 1000) * s.restoreRate < 1000 →
      rateLimitWait s now2 cost < rateLimitWait s now1 cost) := by
  have hpos : ∀ now, estimatedAvailable s now < cost → 0 < rateLimitWait s now cost := by
    intro now h
    unfold rateLimitWait
    rw [if_pos h]
    exact mul_pos (div_pos (by linarith) hr) (by norm_num)
  refine ⟨hpos now1, ?_, ?_⟩
  · intro h12
    have hm := estimatedAvailable_mono s hr.le now1 now2 h12
    by_cases h2 : estimatedAvailable s now2 < cost
    · have h1 : estimatedAvailable s now1 < cost := lt_of_le_of_lt hm h2
      unfold rateLimitWait
      rw [if_pos h2, if_pos h1]
      exact mul_le_mul_of_nonneg_right
        ((div_le_div_iff_of_pos_right hr).mpr (by linarith)) (by norm_num)
    · by_cases h1 : estimatedAvailable s now1 < cost
      · have := hpos now1 h1
        unfold rateLimitWait
        rw [if_neg h2]
        unfold rateLimitWait at this
        rw [if_pos h1] at this ⊢
        linarith
      · unfold rateLimitWait
        rw [if_neg h2, if_neg h1]
  · intro hlt h1 huncap
    have hstrict : estimatedAvailable s now1 < estimatedAvailable s now2 := by
      have harg : s.available + ((now1 - s.lastUpdate) / 1000) * s.restoreRate <
          s.available + ((now2 - s.lastUpdate) / 1000) * s.restoreRate := by
        have := mul_lt_mul_of_pos_right
          ((div_lt_div_iff_of_pos_right (show (0:ℚ) < 1000 by norm_num)).mpr
            (by linarith : now1 - s.lastUpdate < now2 - s.lastUpdate)) hr
        linarith
      unfold estimatedAvailable
      rw [min_eq_right huncap.le]
      exact lt_min huncap harg
    by_cases h2 : estimatedAvailable s now2 < cost
    · unfold rateLimitWait
      rw [if_pos h2, if_pos h1]
      exact mul_lt_mul_of_pos_right
        ((div_lt_div_iff_of_pos_right hr).mpr (by linarith)) (by norm_num)
    · have := hpos now1 h1
      unfold rateLimitWait
      rw [if_neg h2]
      unfold rateLimitWait at this
      rw [if_pos h1] at this ⊢
      linarith

/-- Witness for the amended C8 theorem: state available=100, rate=50,
last update 0, cost 200 — the wait at elapsed 0 is positive, and at
elapsed 500 ms it is strictly smaller. -/
theorem rateLimitWait_pos_and_decreasing_witness :
    0 < rateLimitWait { available := 100, restoreRate := 50, lastUpdate := 0 } 0 200 ∧
    rateLimitWait { available := 100, restoreRate := 50, lastUpdate := 0 } 500 200 <
      rateLimitWait { available := 100, restoreRate := 50, lastUpdate := 0 } 0 200 := by
  have h := rateLimitWait_pos_and_decreasing
    { available := 100, restoreRate := 50, lastUpdate := 0 } 200 0 500 (by norm_num)
  exact ⟨h.1 (by norm_num [estimatedAvailable, min_def]),
    h.2.2 (by norm_num) (by norm_num [estimatedAvailable, min_def]) (by norm_num)⟩

/-! ## Retry loop: claims C1, C2, C6 and C10 -/

/-- A response that always carries a throttling-classified application
error and nothing else. -/
def throttledResp : FetchResult Unit :=
  .resp { ok := true, status := 200, statusText := "OK",
          errors := [{ message := "Throttled", code := some "THROTTLED" }], payload := none }

/-- Claim C1, counterexample: a request function whose responses always
carry a THROTTLED application error does exhaust the attempt bound.  With
retries = 3 the loop issues exactly 3 fetches, waits the fixed 2000 ms
after each, and then raises the terminal error message Unknown error
(the throttled branch never sets lastError), instead of retrying
indefinitely. -/
theorem throttled_requests_exhaust_attempts :
    queryLoop (fun _ => throttledResp) 3 =
      { result := .error "Unknown error", waits := [2000, 2000, 2000], requests := 3 } := by
  rfl

/-- Loop-level form of the amended C1: from any attempt index, a request
function that always produces a throttled response walks the remaining
attempt budget down to zero, sleeping the fixed 2000 ms per attempt,
leaving lastError untouched. -/
theorem queryGo_throttled {α : Type} (req : ℤ → FetchResult α) (retries : ℤ)
    (h : ∀ n, ∃ r, req n = .resp r ∧ r.ok = true ∧ r.errors.isEmpty = false ∧
      isThrottled r.errors = true) :
    ∀ remaining attempt lastError waits requests,
      queryGo req retries attempt lastError waits requests remaining =
        { result := .error (lastError.getD "Unknown error"),
          waits := waits ++ List.replicate remaining 2000,
          requests := requests + remaining } := by
  intro remaining
  induction remaining with
  | zero => intro attempt lastError waits requests; simp [queryGo]
  | succ k ih =>
    intro attempt lastError waits requests
    obtain ⟨r, hr, hok, hne, hth⟩ := h attempt
    simp only [queryGo, hr, hok, hne, hth, Bool.not_true, Bool.not_false, if_true, if_false,
      Bool.false_eq_true, ite_false, ite_true]
    rw [ih]
    simp [List.replicate_succ, List.append_assoc]
    omega

/-- Claim C1 (amended): throttled attempts consume attempt slots exactly
like generic failures.  A request function whose responses always carry a
throttling-classified error makes ShopifyClient.query issue exactly
max(retries, 0) fetches, wait a fixed 2000 ms after each, and then raise
the terminal message Unknown error, because the THROTTLED branch
continues into the loop update `attempt++` and never sets lastError. -/
theorem throttled_bounded_by_retries {α : Type} (req : ℤ → FetchResult α) (retries : ℤ)
    (h : ∀ n, ∃ r, req n = .resp r ∧ r.ok = true ∧ r.errors.isEmpty = false ∧
      isThrottled r.errors = true) :
    queryLoop req retries =
      { result := .error "Unknown error",
        waits := List.replicate retries.toNat 2000,
        requests := retries.toNat } := by
  unfold queryLoop
  rw [queryGo_throttled req retries h]
  simp

/-- Witness for the amended C1 theorem at the always-throttled request
function and retries = 3. -/
theorem throttled_bounded_by_retries_witness :
    queryLoop (fun _ => throttledResp) (3 : ℤ) =
      { result := .error "Unknown error",
        waits := List.replicate (3 : ℤ).toNat 2000,
        requests := (3 : ℤ).toNat } :=
  throttled_bounded_by_retries (fun _ => throttledResp) 3
    (fun _ => ⟨_, rfl, rfl, rfl, rfl⟩)

/-- A response carrying a non-empty application error list without any
throttling classification. -/
def gqlErrResp : FetchResult Unit :=
  .resp { ok := true, status := 200, statusText := "OK",
          errors := [{ message := "first", code := none },
                     { message := "second", code := some "OTHER" }],
          payload := none }

/-- Claim C2, counterexample: a response with a non-empty, non-throttling
error list is not terminal for the call.  With retries = 3 the loop
issues 3 fetches (not 1) and performs the exponential backoffs of 1000 ms
and 2000 ms between them, because the GraphQL error is thrown inside the
try block and caught by the retry catch; only after exhaustion is the
concatenated message raised. -/
theorem graphql_error_is_retried :
    queryLoop (fun _ => gqlErrResp) 3 =
      { result := .error "GraphQL Error: first, second",
        waits := [1000, 2000], requests := 3 } ∧
    (queryLoop (fun _ => gqlErrResp) 3).requests ≠ 1 := by
  exact ⟨rfl, by decide⟩

/-- Loop-level form of the amended C2: from attempt index `attempt ≥ 0`
with `remaining = (retries - attempt).toNat ≥ 1` iterations left, a
request function that always yields the same non-throttling application
error walks all remaining attempts, backing off 2 ^ i * 1000 ms after
each attempt except the last, and raises the concatenated messages. -/
theorem queryGo_gql_error {α : Type} (req : ℤ → FetchResult α) (retries : ℤ)
    (r : GQLResponse α) (hreq : ∀ n, req n = .resp r) (hok : r.ok = true)
    (hne : r.errors.isEmpty = false) (hth : isThrottled r.errors = false) :
    ∀ remaining attempt lastError waits requests, 0 ≤ attempt →
      remaining = (retries - attempt).toNat → 1 ≤ remaining →
      queryGo req retries attempt lastError waits requests remaining =
        { result := .error ("GraphQL Error: " ++ joinMessages r.errors),
          waits := waits ++
            (List.range (remaining - 1)).map (fun i => 2 ^ (attempt.toNat + i) * 1000),
          requests := requests + remaining } := by
  intro remaining
  induction remaining with
  | zero => omega
  | succ k ih =>
    intro attempt lastError waits requests ha hrem _
    by_cases hk : k = 0
    · subst hk
      have hguard : ¬ attempt < retries - 1 := by omega
      simp [queryGo, hreq, hok, hne, hth, hguard]
    · have hguard : attempt < retries - 1 := by omega
      simp only [queryGo, hreq, hok, hne, hth, Bool.not_true, Bool.not_false,
        Bool.false_eq_true, ite_false, ite_true, if_pos hguard]
      rw [ih (attempt + 1) _ _ _ (by omega) (by omega) (by omega)]
      have ht : (attempt + 1).toNat = attempt.toNat + 1 := by omega
      obtain ⟨k', rfl⟩ : ∃ k', k = k' + 1 := ⟨k - 1, by omega⟩
      simp [ht, List.range_succ_eq_map, List.map_map, Function.comp_def, List.append_assoc,
        Nat.add_comm, Nat.add_left_comm, Nat.add_assoc]

/-- Claim C2 (amended): a response whose application-level error list is
non-empty and non-throttling is raised with the concatenated error
messages only after being retried like a generic failure: for retries ≥ 1
and a request function constantly producing such a response, the call
issues retries fetches, backs off 2 ^ i * 1000 ms after each of the first
retries - 1 attempts, and then raises the concatenated messages. -/
theorem graphql_error_retries_then_raises {α : Type} (req : ℤ → FetchResult α)
    (retries : ℤ) (r : GQLResponse α) (hreq : ∀ n, req n = .resp r) (hok : r.ok = true)
    (hne : r.errors.isEmpty = false) (hth : isThrottled r.errors = false)
    (hpos : 1 ≤ retries) :
    queryLoop req retries =
      { result := .error ("GraphQL Error: " ++ joinMessages r.errors),
        waits := (List.range (retries.toNat - 1)).map (fun i => 2 ^ i * 1000),
        requests := retries.toNat } := by
  unfold queryLoop
  rw [queryGo_gql_error req retries r hreq hok hne hth retries.toNat 0 none [] 0 le_rfl
    (by omega) (by omega)]
  simp

/-- Witness for the amended C2 theorem at a concrete two-message error
response and retries = 3. -/
theorem graphql_error_retries_then_raises_witness :
    queryLoop (fun _ => gqlErrResp) (3 : ℤ) =
      { result := .error ("GraphQL Error: " ++
          joinMessages [{ message := "first", code := none },
                        { message := "second", code := some "OTHER" }]),
        waits := (List.range ((3 : ℤ).toNat - 1)).map (fun i => 2 ^ i * 1000),
        requests := (3 : ℤ).toNat } :=
  graphql_error_retries_then_raises (fun _ => gqlErrResp) 3
    { ok := true, status := 200, statusText := "OK",
      errors := [{ message := "first", code := none },
                 { message := "second", code := some "OTHER" }],
      payload := none }
    (fun _ => rfl) rfl rfl rfl (by norm_num)

/-- A request function failing retryably (network rejection) on attempts
0 and 1 and succeeding with a payload on attempt 2. -/
def failTwiceThenOk : ℤ → FetchResult String := fun n =>
  if n < 2 then .netErr ("fail " ++ toString n)
  else .resp { ok := true, status := 200, statusText := "OK", errors := [],
               payload := some "payload" }

/-- A request function failing retryably on every attempt, with a message
identifying the attempt. -/
def alwaysNetErr : ℤ → FetchResult String := fun n => .netErr ("fail " ++ toString n)

/-- Claim C6: with retries = 3 and a request function that fails
retryably twice then succeeds, the call returns the success payload after
exactly two backoff waits of 2^0*1000 = 1000 ms and 2^1*1000 = 2000 ms;
and when all 3 attempts fail, the last observed error (attempt 2's) is
raised after the same two backoffs. -/
theorem retry_backoff_then_success :
    queryLoop failTwiceThenOk 3 =
      { result := .ok "payload",
        waits := [2 ^ 0 * 1000, 2 ^ 1 * 1000], requests := 3 } ∧
    queryLoop alwaysNetErr 3 =
      { result := .error "fail 2", waits := [1000, 2000], requests := 3 } :=
  ⟨rfl, rfl⟩

/-- Claim C10: a non-positive retries option makes the attempt loop body
never execute: no fetch is issued, no wait happens, and the call throws
the fallback message Unknown error since no attempt ever set lastError. -/
theorem nonpositive_retries_no_request {α : Type} (req : ℤ → FetchResult α)
    (retries : ℤ) (h : retries ≤ 0) :
    queryLoop req retries =
      { result := .error "Unknown error", waits := [], requests := 0 } := by
  have h0 : retries.toNat = 0 := Int.toNat_of_nonpos h
  simp [queryLoop, h0, queryGo]

/-- Witness for the C10 theorem at retries = 0. -/
theorem nonpositive_retries_no_request_witness :
    queryLoop (fun _ => (FetchResult.netErr "boom" : FetchResult Unit)) 0 =
      { result := .error "Unknown error", waits := [], requests := 0 } :=
  nonpositive_retries_no_request (fun _ => (FetchResult.netErr "boom" : FetchResult Unit)) 0
    (by norm_num)

/-! ## Pagination: claim C7 -/

/-- First page of the 3-page source: 50 nodes, more to come, cursor c1. -/
def page1 : List ℕ × PageInfo :=
  (List.range 50, { hasNextPage := true, endCursor := some "c1" })

/-- Second page of the 3-page source: 50 nodes, more to come, cursor c2. -/
def page2 : List ℕ × PageInfo :=
  ((List.range 50).map (fun n => n + 50), { hasNextPage := true, endCursor := some "c2" })

/-- Third page of the 3-page source: 20 nodes, hasMore false. -/
def page3 : List ℕ × PageInfo :=
  (List.range 20, { hasNextPage := false, endCursor := some "c3" })

/-- The 3-page mock server: the initial request (after = null) serves
page 1, the request after cursor c1 serves page 2, the request after c2
serves page 3, anything else an empty dead end. -/
def threePageSource : Option String → List ℕ × PageInfo
  | none => page1
  | some c =>
    if c = "c1" then page2
    else if c = "c2" then page3
    else ([], { hasNextPage := false, endCursor := none })

/-- Claim C7: over the 3-page source of sizes 50/50/20 with hasMore false
only on the last page, paginate yields exactly the 3 page arrays in
order and stops (the result is the same for every sufficient fuel), and
the trace of after values it sends is null followed by each page's
endCursor threaded unmodified. -/
theorem paginate_three_pages (k : ℕ) :
    paginate threePageSource Prod.snd Prod.fst (k + 3) =
      ([page1.1, page2.1, page3.1], [none, some "c1", some "c2"]) := by
  rfl

/-! ## Import pipeline: claims C3, C4 and C9 -/

/-- Number of terminal per-item outcomes recorded in the results: items
that completed all sub-steps (assetsCreated), items skipped for a missing
owner, and failed items. -/
def outcomeCount (r : RunResults) : ℕ :=
  r.assetsCreated + r.skippedNoProduct + r.failed

/-- Each loop iteration records exactly one terminal outcome — all steps
completed, skipped, or failed — and leaves the total untouched. -/
theorem processFile_outcome (env : ImportEnv) (bucket basePath : String) (st : RunState)
    (file : DriveFile) :
    outcomeCount (processFile env bucket basePath st file).results
        = outcomeCount st.results + 1 ∧
    (processFile env bucket basePath st file).results.total = st.results.total := by
  unfold processFile processFileK uploadAndRecord
  dsimp only
  repeat' split
  all_goals (try simp [itemFailed, outcomeCount])
  all_goals omega

/-- Folding the loop over a file list adds one terminal outcome per file
and preserves the total. -/
theorem runFilesK_outcome (env : ImportEnv) (bucket basePath : String) :
    ∀ (files : List DriveFile) (st : RunState),
      outcomeCount ((runFilesK env bucket basePath st files).1).results
          = outcomeCount st.results + files.length ∧
      ((runFilesK env bucket basePath st files).1).results.total = st.results.total := by
  intro files
  induction files with
  | nil => intro st; simp [runFilesK]
  | cons f fs ih =>
    intro st
    obtain ⟨h1, h2⟩ := processFile_outcome env bucket basePath st f
    obtain ⟨h3, h4⟩ := ih (processFile env bucket basePath st f)
    have key : (runFilesK env bucket basePath st (f :: fs)).1
        = (runFilesK env bucket basePath (processFile env bucket basePath st f) fs).1 := rfl
    rw [key, List.length_cons]
    exact ⟨by omega, by omega⟩

/-- Claim C3 (amended): every attempted item is accounted in exactly one
of all-sub-steps-succeeded (the assetsCreated counter), skipped or
failed: total = assetsCreated + skippedNoProduct + failed for every run.
The uploaded counter, by contrast, counts successful storage uploads and
is not part of this partition (see the counterexample theorem: an item
whose metadata insert fails after a successful upload is counted in both
uploaded and failed). -/
theorem report_accounts_each_item (env : ImportEnv) (bucket basePath : String)
    (db : Db) (files : List DriveFile) :
    (runImport env bucket basePath db files).results.total =
      (runImport env bucket basePath db files).results.assetsCreated +
      (runImport env bucket basePath db files).results.skippedNoProduct +
      (runImport env bucket basePath db files).results.failed := by
  obtain ⟨h1, h2⟩ := runFilesK_outcome env bucket basePath files
    { db := db, cache := [], results := initResults files }
  rw [show outcomeCount (initResults files) = 0 from rfl] at h1
  rw [show ({ db := db, cache := [], results := initResults files } : RunState).results.total
      = files.length from rfl] at h2
  unfold runImport
  unfold outcomeCount at h1
  omega

/-- A drive file under grouping key SKU1. -/
def fileA : DriveFile :=
  { id := "id1", path := "SKU1/a.jpg", mimeType := "image/jpeg", name := "a.jpg" }

/-- An environment whose download and upload succeed, whose bucket upsert
is canonical, and whose metadata insert always fails. -/
def envInsertFails : ImportEnv :=
  { download := fun _ => .ok 10, uploadObject := fun _ _ _ _ => .ok (),
    bucketUpsert := canonicalUpsert, assetInsert := fun _ _ => .error "insert failed" }

/-- A store holding exactly the owner record for SKU1. -/
def oneProductDb : Db :=
  { products := [{ id := "p1", sku_label := "SKU1" }], buckets := [], assets := [] }

/-- Claim C3, counterexample: one item whose storage upload succeeds and
whose metadata insert then fails is counted in both uploaded and failed,
so total = 1 differs from uploaded + skippedNoProduct + failed = 2: the
uploaded counter does not partition the attempted items. -/
theorem uploaded_and_failed_double_count :
    (runImport envInsertFails "bkt" "" oneProductDb [fileA]).results =
      { total := 1, uploaded := 1, failed := 1,
        errors := [("SKU1/a.jpg", "Asset insert failed for SKU1/a.jpg: insert failed")],
        assetsCreated := 0, bucketsCreated := 1, skippedNoProduct := 0 } ∧
    (runImport envInsertFails "bkt" "" oneProductDb [fileA]).results.total ≠
      (runImport envInsertFails "bkt" "" oneProductDb [fileA]).results.uploaded +
      (runImport envInsertFails "bkt" "" oneProductDb [fileA]).results.skippedNoProduct +
      (runImport envInsertFails "bkt" "" oneProductDb [fileA]).results.failed :=
  ⟨rfl, by decide⟩

/-- Item 1 of the 5-item scenario. -/
def file1 : DriveFile :=
  { id := "id1", path := "SKU1/a.jpg", mimeType := "image/jpeg", name := "a.jpg" }

/-- Item 2 of the 5-item scenario. -/
def file2 : DriveFile :=
  { id := "id2", path := "SKU2/b.jpg", mimeType := "image/jpeg", name := "b.jpg" }

/-- Item 3 of the 5-item scenario: its grouping key SKU3 has no owner. -/
def file3 : DriveFile :=
  { id := "id3", path := "SKU3/c.jpg", mimeType := "image/jpeg", name := "c.jpg" }

/-- Item 4 of the 5-item scenario: its metadata persistence will throw. -/
def file4 : DriveFile :=
  { id := "id4", path := "SKU4/d.jpg", mimeType := "image/jpeg", name := "d.jpg" }

/-- Item 5 of the 5-item scenario. -/
def file5 : DriveFile :=
  { id := "id5", path := "SKU5/e.jpg", mimeType := "image/jpeg", name := "e.jpg" }

/-- Owner records for SKU1, SKU2, SKU4 and SKU5 — none for item 3's
grouping key SKU3. -/
def fourProductsDb : Db :=
  { products := [{ id := "p1", sku_label := "SKU1" }, { id := "p2", sku_label := "SKU2" },
                 { id := "p4", sku_label := "SKU4" }, { id := "p5", sku_label := "SKU5" }],
    buckets := [], assets := [] }

/-- Canonical environment except that item 4's metadata persistence step
(the media_assets insert) throws. -/
def envItem4Fails : ImportEnv :=
  { download := fun _ => .ok 10, uploadObject := fun _ _ _ _ => .ok (),
    bucketUpsert := canonicalUpsert,
    assetInsert := fun db a =>
      if a.google_drive_file_id = "id4" then .error "insert failed"
      else canonicalInsert db a }

/-- Claim C4: over the 5 items, with item 3's grouping key unowned and
item 4's metadata persistence throwing, the run reports
succeeded = assetsCreated = 3 (the counter incremented only when all
sub-steps complete), skippedNoProduct = 1, failed = 1, an errors list
with exactly one entry carrying item 4's path, and item 5 is still
processed: its metadata row is present in the destination (the theorem
also records that the intermediate uploaded counter reads 4, since item
4's storage upload succeeded before its insert failed). -/
theorem five_item_run_report :
    (runImport envItem4Fails "bkt" "" fourProductsDb
        [file1, file2, file3, file4, file5]).results =
      { total := 5, uploaded := 4, failed := 1,
        errors := [("SKU4/d.jpg", "Asset insert failed for SKU4/d.jpg: insert failed")],
        assetsCreated := 3, bucketsCreated := 4, skippedNoProduct := 1 } ∧
    ((runImport envItem4Fails "bkt" "" fourProductsDb
        [file1, file2, file3, file4, file5]).db.assets.map
      (fun a => a.google_drive_file_id)) = ["id1", "id2", "id5"] :=
  ⟨rfl, rfl⟩

/-- Record-store facts about the canonical upsert: it always succeeds
with a row handle, touches only the buckets table, gains at most the
conflict key, preserves the key list and the record count on a hit, and
preserves key distinctness. -/
theorem canonicalUpsert_spec (db : Db) (b : BucketInput) :
    ∃ db' info, canonicalUpsert db b = .ok (db', some info) ∧
      db'.products = db.products ∧
      db'.assets = db.assets ∧
      (∀ x, x ∈ bucketKeys db' ↔ x ∈ bucketKeys db ∨ x = b.product_id) ∧
      (b.product_id ∈ bucketKeys db →
        bucketKeys db' = bucketKeys db ∧ db'.buckets.length = db.buckets.length) ∧
      ((bucketKeys db).Nodup → (bucketKeys db').Nodup) := by
  unfold canonicalUpsert
  cases hfind : db.buckets.find? (fun row => row.product_id = b.product_id) with
  | some row =>
    have hpid : row.product_id = b.product_id := by
      have := List.find?_some hfind
      simpa using this
    have hmem : b.product_id ∈ bucketKeys db := by
      unfold bucketKeys
      exact hpid ▸ List.mem_map_of_mem _ (List.mem_of_find?_eq_some hfind)
    have hkeys : bucketKeys { db with buckets := db.buckets.map (fun x =>
        if x.product_id = b.product_id then
          { x with
              sku_label := b.sku_label,
              storj_path := b.storj_path,
              google_drive_folder_path := b.google_drive_folder_path }
        else x) } = bucketKeys db := by
      unfold bucketKeys
      simp only [List.map_map]
      apply List.map_congr_left
      intro a _
      by_cases hx : a.product_id = b.product_id <;> simp [hx]
    refine ⟨_, _, rfl, rfl, rfl, ?_, ?_, ?_⟩
    · intro x
      rw [hkeys]
      constructor
      · exact Or.inl
      · rintro (hx | rfl)
        · exact hx
        · exact hmem
    · intro _
      exact ⟨hkeys, by simp⟩
    · intro h
      rw [hkeys]; exact h
  | none =>
    have hnot : b.product_id ∉ bucketKeys db := by
      unfold bucketKeys
      intro hx
      obtain ⟨row, hrow, hpe⟩ := List.mem_map.mp hx
      have := List.find?_eq_none.mp hfind row hrow
      simp [hpe] at this
    have hkeys : bucketKeys { db with buckets := db.buckets ++ [bucketRowOfInput b] }
        = bucketKeys db ++ [b.product_id] := by
      unfold bucketKeys bucketRowOfInput
      simp
    refine ⟨_, _, rfl, rfl, rfl, ?_, ?_, ?_⟩
    · intro x
      rw [hkeys]
      simp
    · intro h
      exact absurd h hnot
    · intro h
      rw [hkeys]
      simp [List.nodup_append, h, hnot]

/-- With the canonical record store, the upload-and-record step never
touches products, buckets or the cache, and only appends to assets. -/
theorem uploadAndRecord_canonical (dl : DriveFile → Except String ℕ)
    (ul : String → String → ℕ → String → Except String Unit)
    (bucket basePath : String) (st : RunState)
    (file : DriveFile) (buffer : ℕ) (info : String × String) :
    (uploadAndRecord (canonicalEnv dl ul) bucket basePath st file buffer info).db.products
        = st.db.products ∧
    (uploadAndRecord (canonicalEnv dl ul) bucket basePath st file buffer info).db.buckets
        = st.db.buckets ∧
    (uploadAndRecord (canonicalEnv dl ul) bucket basePath st file buffer info).cache
        = st.cache ∧
    (∃ l, (uploadAndRecord (canonicalEnv dl ul) bucket basePath st file buffer info).db.assets
        = st.db.assets ++ l) := by
  unfold uploadAndRecord canonicalEnv
  dsimp only
  split
  · exact ⟨rfl, rfl, rfl, [], by simp [itemFailed]⟩
  · simp [canonicalInsert]

/-- Projection of the canonical environment. -/
theorem canonicalEnv_download (dl : DriveFile → Except String ℕ)
    (ul : String → String → ℕ → String → Except String Unit) :
    (canonicalEnv dl ul).download = dl := rfl

/-- Projection of the canonical environment. -/
theorem canonicalEnv_bucketUpsert (dl : DriveFile → Except String ℕ)
    (ul : String → String → ℕ → String → Except String Unit) :
    (canonicalEnv dl ul).bucketUpsert = canonicalUpsert := rfl

/-- Per-item facts under the canonical record store: products are
preserved; the key set gains exactly the keys the iteration upserted; key
distinctness is preserved; when every upserted key already exists the key
list and bucket count are unchanged; assets only grow. -/
theorem processFileK_canonical (dl : DriveFile → Except String ℕ)
    (ul : String → String → ℕ → String → Except String Unit)
    (bucket basePath : String) (st : RunState) (file : DriveFile) :
    (processFileK (canonicalEnv dl ul) bucket basePath st file).1.db.products
        = st.db.products ∧
    (∀ x, x ∈ bucketKeys (processFileK (canonicalEnv dl ul) bucket basePath st file).1.db ↔
        x ∈ bucketKeys st.db ∨ x ∈ (processFileK (canonicalEnv dl ul) bucket basePath st file).2) ∧
    ((bucketKeys st.db).Nodup →
        (bucketKeys (processFileK (canonicalEnv dl ul) bucket basePath st file).1.db).Nodup) ∧
    ((∀ k ∈ (processFileK (canonicalEnv dl ul) bucket basePath st file).2,
        k ∈ bucketKeys st.db) →
      bucketKeys (processFileK (canonicalEnv dl ul) bucket basePath st file).1.db
          = bucketKeys st.db ∧
      (processFileK (canonicalEnv dl ul) bucket basePath st file).1.db.buckets.length
          = st.db.buckets.length) ∧
    (∃ l, (processFileK (canonicalEnv dl ul) bucket basePath st file).1.db.assets
        = st.db.assets ++ l) := by
  unfold processFileK
  rw [canonicalEnv_download, canonicalEnv_bucketUpsert]
  dsimp only
  cases hdl : dl file with
  | error msg =>
    exact ⟨rfl, fun x => by simp [itemFailed], fun h => h, fun _ => ⟨rfl, rfl⟩, [],
      by simp [itemFailed]⟩
  | ok buffer =>
    by_cases hsku : (splitOnSlash file.path).headD "" = ""
    · simp only [hsku, if_pos rfl]
      exact ⟨rfl, fun x => by simp [itemFailed], fun h => h, fun _ => ⟨rfl, rfl⟩, [],
        by simp [itemFailed]⟩
    · simp only [if_neg hsku]
      cases hfind : st.cache.find? (fun e => e.1 = (splitOnSlash file.path).headD "") with
      | some entry =>
        obtain ⟨hP, hB, hC, l, hA⟩ := uploadAndRecord_canonical dl ul bucket basePath st file
          buffer (entry.2.1, entry.2.2)
        have hK : bucketKeys (uploadAndRecord (canonicalEnv dl ul) bucket basePath st file
            buffer (entry.2.1, entry.2.2)).db = bucketKeys st.db := by
          unfold bucketKeys
          rw [hB]
        refine ⟨hP, fun x => by rw [hK]; simp, fun h => hK ▸ h,
          fun _ => ⟨hK, congrArg List.length hB⟩, l, hA⟩
      | none =>
        cases hprod : productSingle st.db.products ((splitOnSlash file.path).headD "") with
        | none =>
          exact ⟨rfl, fun x => by simp, fun h => h, fun _ => ⟨rfl, rfl⟩, [], by simp⟩
        | some product =>
          obtain ⟨db', info, hup, hPP, hAA, hIff, hPres, hND⟩ :=
            canonicalUpsert_spec st.db
              { product_id := product.id,
                sku_label := (splitOnSlash file.path).headD "",
                storj_path := joinNonEmpty ""
                  [basePath, "products/" ++ (splitOnSlash file.path).headD "" ++ "/"],
                google_drive_folder_path := folderPathOf file }
          dsimp only
          rw [hup]
          dsimp only
          obtain ⟨hP2, hB2, hC2, l2, hA2⟩ := uploadAndRecord_canonical dl ul bucket basePath
            { st with
                db := db',
                cache := st.cache ++
                  [((splitOnSlash file.path).headD "", info.1, info.2)],
                results := { st.results with
                  bucketsCreated := st.results.bucketsCreated + 1 } }
            file buffer info
          have hK2 : bucketKeys (uploadAndRecord (canonicalEnv dl ul) bucket basePath
              { st with
                  db := db',
                  cache := st.cache ++
                    [((splitOnSlash file.path).headD "", info.1, info.2)],
                  results := { st.results with
                    bucketsCreated := st.results.bucketsCreated + 1 } }
              file buffer info).db = bucketKeys db' := by
            unfold bucketKeys
            rw [hB2]
          refine ⟨?_, ?_, ?_, ?_, ?_⟩
          · rw [hP2]
            exact hPP
          · intro x
            rw [hK2, hIff x]
            simp
          · intro h
            rw [hK2]
            exact hND h
          · intro hk
            have hmem : product.id ∈ bucketKeys st.db := hk product.id (by simp)
            obtain ⟨he, hl⟩ := hPres hmem
            refine ⟨by rw [hK2, he], ?_⟩
            have : (uploadAndRecord (canonicalEnv dl ul) bucket basePath
                { st with
                    db := db',
                    cache := st.cache ++
                      [((splitOnSlash file.path).headD "", info.1, info.2)],
                    results := { st.results with
                      bucketsCreated := st.results.bucketsCreated + 1 } }
                file buffer info).db.buckets = db'.buckets := hB2
            rw [this, hl]
          · refine ⟨l2, ?_⟩
            rw [hA2]
            dsimp only
            rw [hAA]

/-- A cache lookup hits exactly when the SKU label is among the cached
keys. -/
theorem cacheFind_isSome (c : List (String × String × String)) (s : String) :
    (c.find? (fun e => e.1 = s)).isSome = true ↔ s ∈ cacheKeys c := by
  rw [List.find?_isSome]
  unfold cacheKeys
  constructor
  · rintro ⟨e, he, hpred⟩
    simp only [decide_eq_true_eq] at hpred
    exact hpred ▸ List.mem_map_of_mem _ he
  · intro h
    obtain ⟨e, he, hpred⟩ := List.mem_map.mp h
    exact ⟨e, he, by simp [hpred]⟩

/-- Simulation: two states sharing the products table and the cached key
set make the same upsert calls on one item and keep equal cached key
sets (the branch decisions read only those two components). -/
theorem processFileK_sim (dl : DriveFile → Except String ℕ)
    (ul : String → String → ℕ → String → Except String Unit)
    (bucket basePath : String) (file : DriveFile) (st1 st2 : RunState)
    (hp : st2.db.products = st1.db.products)
    (hc : cacheKeys st2.cache = cacheKeys st1.cache) :
    (processFileK (canonicalEnv dl ul) bucket basePath st2 file).2
      = (processFileK (canonicalEnv dl ul) bucket basePath st1 file).2 ∧
    cacheKeys (processFileK (canonicalEnv dl ul) bucket basePath st2 file).1.cache
      = cacheKeys (processFileK (canonicalEnv dl ul) bucket basePath st1 file).1.cache := by
  unfold processFileK
  rw [canonicalEnv_download, canonicalEnv_bucketUpsert]
  dsimp only
  cases hdl : dl file with
  | error msg => exact ⟨rfl, hc⟩
  | ok buffer =>
    by_cases hsku : (splitOnSlash file.path).headD "" = ""
    · simp only [hsku, if_pos rfl]
      exact ⟨rfl, hc⟩
    · simp only [if_neg hsku]
      cases hf1 : st1.cache.find? (fun e => e.1 = (splitOnSlash file.path).headD "") with
      | some e1 =>
        have hsome2 : (st2.cache.find?
            (fun e => e.1 = (splitOnSlash file.path).headD "")).isSome = true := by
          rw [cacheFind_isSome, hc, ← cacheFind_isSome, hf1]
          rfl
        cases hf2 : st2.cache.find? (fun e => e.1 = (splitOnSlash file.path).headD "") with
        | none => rw [hf2] at hsome2; simp at hsome2
        | some e2 =>
          obtain ⟨-, -, hC1, -⟩ := uploadAndRecord_canonical dl ul bucket basePath st1 file
            buffer (e1.2.1, e1.2.2)
          obtain ⟨-, -, hC2, -⟩ := uploadAndRecord_canonical dl ul bucket basePath st2 file
            buffer (e2.2.1, e2.2.2)
          exact ⟨rfl, by rw [hC1, hC2]; exact hc⟩
      | none =>
        have hf2 : st2.cache.find? (fun e => e.1 = (splitOnSlash file.path).headD "")
            = none := by
          cases hx : st2.cache.find? (fun e => e.1 = (splitOnSlash file.path).headD "") with
          | none => rfl
          | some e2 =>
            exfalso
            have hmem : (splitOnSlash file.path).headD "" ∈ cacheKeys st2.cache := by
              rw [← cacheFind_isSome, hx]
              rfl
            rw [hc, ← cacheFind_isSome, hf1] at hmem
            simp at hmem
        rw [hf2, hp]
        dsimp only
        cases hprod : productSingle st1.db.products ((splitOnSlash file.path).headD "") with
        | none => exact ⟨rfl, hc⟩
        | some product =>
          obtain ⟨db1', info1, hup1, -, -, -, -, -⟩ :=
            canonicalUpsert_spec st1.db
              { product_id := product.id,
                sku_label := (splitOnSlash file.path).headD "",
                storj_path := joinNonEmpty ""
                  [basePath, "products/" ++ (splitOnSlash file.path).headD "" ++ "/"],
                google_drive_folder_path := folderPathOf file }
          obtain ⟨db2', info2, hup2, -, -, -, -, -⟩ :=
            canonicalUpsert_spec st2.db
              { product_id := product.id,
                sku_label := (splitOnSlash file.path).headD "",
                storj_path := joinNonEmpty ""
                  [basePath, "products/" ++ (splitOnSlash file.path).headD "" ++ "/"],
                google_drive_folder_path := folderPathOf file }
          dsimp only
          rw [hup1, hup2]
          dsimp only
          obtain ⟨-, -, hCa, -⟩ := uploadAndRecord_canonical dl ul bucket basePath
            { st1 with
                db := db1',
                cache := st1.cache ++
                  [((splitOnSlash file.path).headD "", info1.1, info1.2)],
                results := { st1.results with
                  bucketsCreated := st1.results.bucketsCreated + 1 } }
            file buffer info1
          obtain ⟨-, -, hCb, -⟩ := uploadAndRecord_canonical dl ul bucket basePath
            { st2 with
                db := db2',
                cache := st2.cache ++
                  [((splitOnSlash file.path).headD "", info2.1, info2.2)],
                results := { st2.results with
                  bucketsCreated := st2.results.bucketsCreated + 1 } }
            file buffer info2
          refine ⟨rfl, ?_⟩
          rw [hCa, hCb]
          dsimp only
          unfold cacheKeys at hc ⊢
          simp only [List.map_append, hc]
          rfl

/-- Run-level facts under the canonical record store: products are
preserved, keys only grow, every upserted key is present at the end of
the run, key distinctness is preserved, and assets only grow. -/
theorem runFilesK_canonical (dl : DriveFile → Except String ℕ)
    (ul : String → String → ℕ → String → Except String Unit)
    (bucket basePath : String) :
    ∀ (files : List DriveFile) (st : RunState),
      (runFilesK (canonicalEnv dl ul) bucket basePath st files).1.db.products
          = st.db.products ∧
      (∀ x, x ∈ bucketKeys st.db →
          x ∈ bucketKeys (runFilesK (canonicalEnv dl ul) bucket basePath st files).1.db) ∧
      (∀ k ∈ (runFilesK (canonicalEnv dl ul) bucket basePath st files).2,
          k ∈ bucketKeys (runFilesK (canonicalEnv dl ul) bucket basePath st files).1.db) ∧
      ((bucketKeys st.db).Nodup →
          (bucketKeys (runFilesK (canonicalEnv dl ul) bucket basePath st files).1.db).Nodup) ∧
      (∃ l, (runFilesK (canonicalEnv dl ul) bucket basePath st files).1.db.assets
          = st.db.assets ++ l) := by
  intro files
  induction files with
  | nil =>
    intro st
    refine ⟨rfl, fun x h => h, ?_, fun h => h, [], by simp [runFilesK]⟩
    intro k hk
    simp [runFilesK] at hk
  | cons f fs ih =>
    intro st
    obtain ⟨p1, m1, n1, pres1, l1, a1⟩ := processFileK_canonical dl ul bucket basePath st f
    obtain ⟨p2, mono2, trIn2, nd2, l2, a2⟩ :=
      ih (processFileK (canonicalEnv dl ul) bucket basePath st f).1
    have hstep : (runFilesK (canonicalEnv dl ul) bucket basePath st (f :: fs)).1
        = (runFilesK (canonicalEnv dl ul) bucket basePath
            (processFileK (canonicalEnv dl ul) bucket basePath st f).1 fs).1 := rfl
    have htr : (runFilesK (canonicalEnv dl ul) bucket basePath st (f :: fs)).2
        = (processFileK (canonicalEnv dl ul) bucket basePath st f).2 ++
          (runFilesK (canonicalEnv dl ul) bucket basePath
            (processFileK (canonicalEnv dl ul) bucket basePath st f).1 fs).2 := rfl
    rw [hstep, htr]
    refine ⟨p2.trans p1, ?_, ?_, ?_, ?_⟩
    · intro x hx
      exact mono2 x ((m1 x).mpr (Or.inl hx))
    · intro k hk
      rcases List.mem_append.mp hk with hk1 | hk2
      · exact mono2 k ((m1 k).mpr (Or.inr hk1))
      · exact trIn2 k hk2
    · intro h
      exact nd2 (n1 h)
    · exact ⟨l1 ++ l2, by rw [a2, a1, List.append_assoc]⟩

/-- Simulation over a whole run: equal products tables and cached key
sets produce the same upsert-key trace. -/
theorem runFilesK_sim (dl : DriveFile → Except String ℕ)
    (ul : String → String → ℕ → String → Except String Unit)
    (bucket basePath : String) :
    ∀ (files : List DriveFile) (st1 st2 : RunState),
      st2.db.products = st1.db.products →
      cacheKeys st2.cache = cacheKeys st1.cache →
      (runFilesK (canonicalEnv dl ul) bucket basePath st2 files).2
        = (runFilesK (canonicalEnv dl ul) bucket basePath st1 files).2 := by
  intro files
  induction files with
  | nil => intro st1 st2 _ _; rfl
  | cons f fs ih =>
    intro st1 st2 hp hc
    obtain ⟨htrace, hcache⟩ := processFileK_sim dl ul bucket basePath f st1 st2 hp hc
    obtain ⟨pa, -, -, -, -⟩ := processFileK_canonical dl ul bucket basePath st1 f
    obtain ⟨pb, -, -, -, -⟩ := processFileK_canonical dl ul bucket basePath st2 f
    have hp' : (processFileK (canonicalEnv dl ul) bucket basePath st2 f).1.db.products
        = (processFileK (canonicalEnv dl ul) bucket basePath st1 f).1.db.products := by
      rw [pa, pb, hp]
    have htr2 : (runFilesK (canonicalEnv dl ul) bucket basePath st2 (f :: fs)).2
        = (processFileK (canonicalEnv dl ul) bucket basePath st2 f).2 ++
          (runFilesK (canonicalEnv dl ul) bucket basePath
            (processFileK (canonicalEnv dl ul) bucket basePath st2 f).1 fs).2 := rfl
    have htr1 : (runFilesK (canonicalEnv dl ul) bucket basePath st1 (f :: fs)).2
        = (processFileK (canonicalEnv dl ul) bucket basePath st1 f).2 ++
          (runFilesK (canonicalEnv dl ul) bucket basePath
            (processFileK (canonicalEnv dl ul) bucket basePath st1 f).1 fs).2 := rfl
    rw [htr2, htr1, htrace,
      ih (processFileK (canonicalEnv dl ul) bucket basePath st1 f).1
        (processFileK (canonicalEnv dl ul) bucket basePath st2 f).1 hp' hcache]

/-- A run whose every upsert hits an already-present key leaves the
grouping-record key list and count unchanged. -/
theorem runFilesK_preserved (dl : DriveFile → Except String ℕ)
    (ul : String → String → ℕ → String → Except String Unit)
    (bucket basePath : String) :
    ∀ (files : List DriveFile) (st : RunState),
      (∀ k ∈ (runFilesK (canonicalEnv dl ul) bucket basePath st files).2,
          k ∈ bucketKeys st.db) →
      bucketKeys (runFilesK (canonicalEnv dl ul) bucket basePath st files).1.db
          = bucketKeys st.db ∧
      (runFilesK (canonicalEnv dl ul) bucket basePath st files).1.db.buckets.length
          = st.db.buckets.length := by
  intro files
  induction files with
  | nil => intro st _; exact ⟨rfl, rfl⟩
  | cons f fs ih =>
    intro st h
    obtain ⟨-, -, -, pres1, -, -⟩ := processFileK_canonical dl ul bucket basePath st f
    have htr : (runFilesK (canonicalEnv dl ul) bucket basePath st (f :: fs)).2
        = (processFileK (canonicalEnv dl ul) bucket basePath st f).2 ++
          (runFilesK (canonicalEnv dl ul) bucket basePath
            (processFileK (canonicalEnv dl ul) bucket basePath st f).1 fs).2 := rfl
    rw [htr] at h
    obtain ⟨hkeys1, hlen1⟩ :=
      pres1 (fun k hk => h k (List.mem_append_left _ hk))
    obtain ⟨hkeys2, hlen2⟩ :=
      ih (processFileK (canonicalEnv dl ul) bucket basePath st f).1
        (fun k hk => hkeys1 ▸ h k (List.mem_append_right _ hk))
    have hstep : (runFilesK (canonicalEnv dl ul) bucket basePath st (f :: fs)).1
        = (runFilesK (canonicalEnv dl ul) bucket basePath
            (processFileK (canonicalEnv dl ul) bucket basePath st f).1 fs).1 := rfl
    rw [hstep]
    exact ⟨hkeys2.trans hkeys1, hlen2.trans hlen1⟩

/-- Claim C9: with the canonical record-store semantics (media_buckets
upserted on the product_id conflict key, media_assets append-only
inserted) and deterministic download/upload collaborators, running
the import twice over the same file list never duplicates a grouping
record:
the second run leaves the media_buckets count and key list exactly as the
first run left them; distinctness of grouping keys is preserved from the
initial store through the first run; and the second run only appends to
media_assets (per-item metadata may be duplicated). -/
theorem second_run_adds_no_grouping_records (dl : DriveFile → Except String ℕ)
    (ul : String → String → ℕ → String → Except String Unit)
    (bucket basePath : String) (db : Db) (files : List DriveFile) :
    (runImport (canonicalEnv dl ul) bucket basePath
        (runImport (canonicalEnv dl ul) bucket basePath db files).db files).db.buckets.length
      = (runImport (canonicalEnv dl ul) bucket basePath db files).db.buckets.length ∧
    bucketKeys (runImport (canonicalEnv dl ul) bucket basePath
        (runImport (canonicalEnv dl ul) bucket basePath db files).db files).db
      = bucketKeys (runImport (canonicalEnv dl ul) bucket basePath db files).db ∧
    ((bucketKeys db).Nodup →
      (bucketKeys (runImport (canonicalEnv dl ul) bucket basePath db files).db).Nodup) ∧
    (∃ l, (runImport (canonicalEnv dl ul) bucket basePath
        (runImport (canonicalEnv dl ul) bucket basePath db files).db files).db.assets
      = (runImport (canonicalEnv dl ul) bucket basePath db files).db.assets ++ l) := by
  obtain ⟨p1, mono1, trIn1, nd1, -, -⟩ := runFilesK_canonical dl ul bucket basePath files
    { db := db, cache := [], results := initResults files }
  have hdb1 : (runImport (canonicalEnv dl ul) bucket basePath db files).db
      = (runFilesK (canonicalEnv dl ul) bucket basePath
          { db := db, cache := [], results := initResults files } files).1.db := rfl
  have hsim := runFilesK_sim dl ul bucket basePath files
    { db := db, cache := [], results := initResults files }
    { db := (runImport (canonicalEnv dl ul) bucket basePath db files).db, cache := [],
      results := initResults files }
    (by rw [hdb1]; exact p1) rfl
  obtain ⟨hkeys, hlen⟩ := runFilesK_preserved dl ul bucket basePath files
    { db := (runImport (canonicalEnv dl ul) bucket basePath db files).db, cache := [],
      results := initResults files }
    (by
      intro k hk
      rw [hsim] at hk
      have := trIn1 k hk
      rw [hdb1]
      exact this)
  obtain ⟨-, -, -, -, l2, a2⟩ := runFilesK_canonical dl ul bucket basePath files
    { db := (runImport (canonicalEnv dl ul) bucket basePath db files).db, cache := [],
      results := initResults files }
  exact ⟨hlen, hkeys, fun h => by rw [hdb1]; exact nd1 h, l2, a2⟩

/-- Deterministic download collaborator used by the C9 witness. -/
def dlC9 : DriveFile → Except String ℕ := fun _ => .ok 7

/-- Deterministic upload collaborator used by the C9 witness. -/
def ulC9 : String → String → ℕ → String → Except String Unit := fun _ _ _ _ => .ok ()

/-- Witness for the C9 theorem at a concrete store and 5-file source. -/
theorem second_run_adds_no_grouping_records_witness :
    (runImport (canonicalEnv dlC9 ulC9) "bkt" "base"
        (runImport (canonicalEnv dlC9 ulC9) "bkt" "base" fourProductsDb
          [file1, file2, file3, file4, file5]).db
        [file1, file2, file3, file4, file5]).db.buckets.length
      = (runImport (canonicalEnv dlC9 ulC9) "bkt" "base" fourProductsDb
          [file1, file2, file3, file4, file5]).db.buckets.length ∧
    (bucketKeys (runImport (canonicalEnv dlC9 ulC9) "bkt" "base" fourProductsDb
        [file1, file2, file3, file4, file5]).db).Nodup := by
  have h := second_run_adds_no_grouping_records dlC9 ulC9 "bkt" "base" fourProductsDb
    [file1, file2, file3, file4, file5]
  exact ⟨h.1, h.2.2.1 (by simp [bucketKeys, fourProductsDb])⟩

end Spec2Proof
